import Mathlib

/-!
# M3U-Player: playlist parser and playback controller

A shallow embedding of `src/public/app.js`.

* JavaScript strings are modelled as `List Char`.  Every string operation used by the
  source (`split`, `trim`, `startsWith`, `endsWith`, `includes`) works on whole
  characters of the Basic Multilingual Plane, so on well-formed text the code-point
  view and the UTF-16 view agree.
* The module-level variables (`hls`, `currentUrl`) and the properties of the DOM
  elements the script writes to are the fields of `Player`.
* Calls into the outside world (the `Hls` library, the `video` element, `fetch`,
  `alert`) are recorded, in order, in `Player.trace`.  An engine instance created by
  `new Hls(...)` is identified by a fresh number.  Console output is left out.
* `loadSource` is the one `async` function; its `await`s are modelled as completing at
  once, with the outcome of the fetch as an argument.
-/

namespace M3UPlayer

/-! ## Strings -/

/-- Characters removed by `String.prototype.trim`: ECMAScript `WhiteSpace` and
`LineTerminator`. -/
def isJsWhitespace (c : Char) : Bool :=
  let n := c.toNat
  n == 0x09 || n == 0x0A || n == 0x0B || n == 0x0C || n == 0x0D || n == 0x20 ||
  n == 0xA0 || n == 0x1680 || (0x2000 ≤ n && n ≤ 0x200A) || n == 0x2028 ||
  n == 0x2029 || n == 0x202F || n == 0x205F || n == 0x3000 || n == 0xFEFF

/-- Same as `s.trim()`. -/
def trim (s : List Char) : List Char :=
  ((s.dropWhile isJsWhitespace).reverse.dropWhile isJsWhitespace).reverse

/-- Same as `s.split(sep)` for a one-character separator: the result always has at
least one field. -/
def split (sep : Char) : List Char → List (List Char)
  | [] => [[]]
  | c :: cs =>
    if c = sep then [] :: split sep cs
    else
      match split sep cs with
      | [] => [[c]]
      | f :: fs => (c :: f) :: fs

/-- Same as `s.startsWith(p)`. -/
def startsWith (s p : List Char) : Bool := p.isPrefixOf s

/-- Same as `s.endsWith(p)`. -/
def endsWith (s p : List Char) : Bool := p.isSuffixOf s

/-- Same as `s.includes(p)`. -/
def includes (s p : List Char) : Bool := s.tails.any fun t => p.isPrefixOf t

/-! ## Playlist parser (`parseM3U`, app.js 68-86) -/

/-- One element of the array returned by `parseM3U`: `{ title, url }`. -/
structure Channel where
  title : List Char
  url : List Char
  deriving DecidableEq, Repr

/-- The marker `'#EXTINF:'`. -/
def extinfMarker : List Char := "#EXTINF:".toList

/-- The literal `"未知频道"` ("unknown channel"). -/
def unknownChannelTitle : List Char := "未知频道".toList

/-- The literal `"未命名"` ("unnamed"). -/
def unnamedTitle : List Char := "未命名".toList

/-- The body of `for (let line of lines)`, with the loop variables `currentTitle` and
`channels` threaded through. -/
def parseLoop : List (List Char) → List Char → List Channel → List Channel
  | [], _, channels => channels
  | raw :: rest, currentTitle, channels =>
    let line := trim raw
    if startsWith line extinfMarker then
      let info := split ',' line
      parseLoop rest (if info.length > 1 then info.getD 1 [] else unknownChannelTitle) channels
    else if line ≠ [] ∧ ¬ startsWith line ['#'] then
      parseLoop rest []
        (channels ++ [{ title := if currentTitle ≠ [] then currentTitle else unnamedTitle,
                        url := line }])
    else
      parseLoop rest currentTitle channels

/-- The function `parseM3U(content)`. -/
def parseM3U (content : List Char) : List Channel :=
  parseLoop (split '\n' content) [] []

/-- A trimmed line that starts with `'#EXTINF:'`. -/
def isExtinfLine (line : List Char) : Bool := startsWith line extinfMarker

/-- A trimmed line that is non-empty and does not begin with `'#'`. -/
def isUrlLine (line : List Char) : Bool := decide (line ≠ []) && !startsWith line ['#']

/-- The lines of a text, split on `'\n'` and trimmed one by one. -/
def trimmedLines (content : List Char) : List (List Char) :=
  (split '\n' content).map trim

/-! ## Playback controller (app.js 1-6, 113-198) -/

/-- The value of `data.type` in an `Hls.Events.ERROR` payload, as far as the handler's
`switch` tells values apart: `Hls.ErrorTypes.NETWORK_ERROR`, `Hls.ErrorTypes.MEDIA_ERROR`,
or anything else (the `default:` case). -/
inductive ErrorType
  | networkError
  | mediaError
  | otherError
  deriving DecidableEq, Repr

/-- The payload `data` of an `Hls.Events.ERROR` event. -/
structure ErrorData where
  fatal : Bool
  type : ErrorType
  deriving DecidableEq, Repr

/-- The engine events the script listens to. -/
inductive HlsEvent
  | manifestParsed
  | error
  deriving DecidableEq, Repr

/-- The calls the script makes into its surroundings, and the entries into `playChannel`
and `parseM3U`, as they appear in `Player.trace`. -/
inductive Effect
  | hlsNew (engine : Nat)
  | hlsLoadSource (engine : Nat) (url : List Char)
  | hlsAttachMedia (engine : Nat)
  | hlsOn (engine : Nat) (event : HlsEvent)
  | hlsStartLoad (engine : Nat)
  | hlsRecoverMediaError (engine : Nat)
  | hlsDestroy (engine : Nat)
  | videoPlay
  | videoLoad
  | fetch (url : List Char)
  | alert (msg : List Char)
  | playChannelCall (url title : List Char)
  | parseM3UCall (content : List Char)
  deriving DecidableEq, Repr

/-- The value of `errorOverlay.style.display`: not yet written by the script, `'none'` or
`'flex'`. -/
inductive Display
  | initial
  | none
  | flex
  deriving DecidableEq, Repr

/-- One `<li>` of `#channelList`: its text, whether it carries the class `active`, and the
arguments of the `playChannel` call its click handler makes. -/
structure ListItem where
  text : List Char
  active : Bool
  url : List Char
  title : List Char
  deriving DecidableEq, Repr

/-- What the host answers to the two capability checks of `playChannel`:
`video.canPlayType('application/vnd.apple.mpegurl')` (truthy or not) and
`Hls.isSupported()`. -/
structure Platform where
  canPlayNative : Bool
  hlsSupported : Bool
  deriving DecidableEq, Repr

/-- The state the script reads and writes: the globals `hls` and `currentUrl`, the
properties of the page elements it sets, the number the next engine instance will get,
and the trace of calls made so far. -/
structure Player where
  hls : Option Nat
  currentUrl : List Char
  currentTitle : List Char
  videoSrc : Option (List Char)
  errorDetail : List Char
  errorOverlayDisplay : Display
  statusMsg : List Char
  channelList : List ListItem
  nextEngine : Nat
  trace : List Effect
  deriving DecidableEq, Repr

/-- The state when the script has just been loaded: `hls = null`, `currentUrl = ""`. -/
def initial : Player :=
  { hls := none, currentUrl := [], currentTitle := [], videoSrc := none, errorDetail := [],
    errorOverlayDisplay := .initial, statusMsg := [], channelList := [], nextEngine := 0,
    trace := [] }

/-- Appends one call to the trace. -/
def emit (e : Effect) (s : Player) : Player :=
  { s with trace := s.trace ++ [e] }

/-- The message of the `default:` case of the error handler. -/
def msgResourceInvalid : List Char := "资源无法加载或已失效".toList

/-- The message of the last branch of `playChannel`. -/
def msgHlsUnsupported : List Char := "您的浏览器不支持 HLS 播放".toList

/-- The message for a rejected native `video.play()`. -/
def msgNativePlayFailed : List Char := "原生播放失败，可能是编码不支持".toList

/-- The title `renderSingleChannel` plays its channel under. -/
def singleChannelTitle : List Char := "单频道".toList

/-- The function `hideError()`. -/
def hideError (s : Player) : Player :=
  { s with errorOverlayDisplay := .none }

/-- The function `stopAndShowError(msg)`. -/
def stopAndShowError (msg : List Char) (s : Player) : Player :=
  let s := match s.hls with
    | some engine => { emit (.hlsDestroy engine) s with hls := none }
    | none => s
  let s := { s with videoSrc := none }
  let s := emit .videoLoad s
  let s := { s with errorDetail := msg }
  { s with errorOverlayDisplay := .flex }

/-- The function `handleError(msg)`. -/
def handleError (msg : List Char) (s : Player) : Player :=
  stopAndShowError msg s

/-- The function `playChannel(url, title)`.  On the `Hls` branch the new instance gets the
number `nextEngine`; the two `hls.on` calls register the handlers `onManifestParsed` and
`onHlsError` below. -/
def playChannel (p : Platform) (url title : List Char) (s : Player) : Player :=
  let s := emit (.playChannelCall url title) s
  let s := { s with currentUrl := url }
  let s := { s with currentTitle := title }
  let s := hideError s
  let s := match s.hls with
    | some engine => { emit (.hlsDestroy engine) s with hls := none }
    | none => s
  if p.canPlayNative then
    let s := { s with videoSrc := some url }
    emit .videoPlay s
  else if p.hlsSupported then
    let engine := s.nextEngine
    let s := emit (.hlsNew engine) { s with nextEngine := engine + 1 }
    let s := { s with hls := some engine }
    let s := emit (.hlsLoadSource engine url) s
    let s := emit (.hlsAttachMedia engine) s
    let s := emit (.hlsOn engine .manifestParsed) s
    emit (.hlsOn engine .error) s
  else
    stopAndShowError msgHlsUnsupported s

/-- How a handler ends: it returns, or it throws with the state as it is then. -/
inductive Outcome
  | returned (s : Player)
  | threwTypeError (s : Player)
  deriving DecidableEq, Repr

/-- The state a handler leaves behind. -/
def Outcome.state : Outcome → Player
  | .returned s => s
  | .threwTypeError s => s

/-- The handler registered with `hls.on(Hls.Events.MANIFEST_PARSED, ...)`. -/
def onManifestParsed (s : Player) : Player :=
  emit .videoPlay s

/-- The handler registered with `hls.on(Hls.Events.ERROR, ...)`.  Its body reads the global
`hls`, not the instance it was registered on; a method call on `null` throws. -/
def onHlsError (data : ErrorData) (s : Player) : Outcome :=
  if !data.fatal then .returned s
  else
    match data.type with
    | .networkError =>
      match s.hls with
      | some engine => .returned (emit (.hlsStartLoad engine) s)
      | none => .threwTypeError s
    | .mediaError =>
      match s.hls with
      | some engine => .returned (emit (.hlsRecoverMediaError engine) s)
      | none => .threwTypeError s
    | .otherError => .returned (stopAndShowError msgResourceInvalid s)

/-- The function `retryPlayback()`. -/
def retryPlayback (p : Platform) (s : Player) : Player :=
  if s.currentUrl ≠ [] then playChannel p s.currentUrl s.currentTitle s else s

/-! ## Source resolver (app.js 23-65, 89-110) -/

/-- The function `renderChannelList(channels)`. -/
def renderChannelList (channels : List Channel) (s : Player) : Player :=
  { s with channelList := channels.map fun ch =>
      { text := ch.title, active := false, url := ch.url, title := ch.title } }

/-- The function `renderSingleChannel(url)`.  The list item stands for the markup the
source writes, for a `url` without quote or markup characters. -/
def renderSingleChannel (p : Platform) (url : List Char) (s : Player) : Player :=
  let s := { s with channelList :=
    [{ text := "单频道资源".toList, active := true, url := url, title := singleChannelTitle }] }
  playChannel p url singleChannelTitle s

/-- How `await fetch(url)` followed by `await response.text()` can end: the fetch is
rejected, or it yields a response with its `ok` flag and, unless reading fails, its body. -/
inductive FetchOutcome
  | rejected
  | response (ok : Bool) (body : Option (List Char))
  deriving DecidableEq, Repr

/-- The `catch (e)` block of `loadSource`. -/
def loadSourceCatch (p : Platform) (url : List Char) (s : Player) : Player :=
  let s := { s with statusMsg := "无法解析列表，尝试直接播放...".toList }
  renderSingleChannel p url s

/-- The function `loadSource()`, with the value of `#m3uInput` and the behaviour of `fetch`
as arguments. -/
def loadSource (p : Platform) (fetch : List Char → FetchOutcome) (input : List Char)
    (s : Player) : Player :=
  let url := trim input
  if url = [] then
    emit (.alert "请输入链接".toList) s
  else
    let s := { s with statusMsg := "正在解析...".toList }
    if endsWith url ".m3u8".toList then
      let s := renderSingleChannel p url s
      { s with statusMsg := "就绪".toList }
    else
      let s := emit (.fetch url) s
      match fetch url with
      | .rejected => loadSourceCatch p url s
      | .response false _ => loadSourceCatch p url s
      | .response true none => loadSourceCatch p url s
      | .response true (some text) =>
        if includes text "#EXTM3U".toList then
          let s := emit (.parseM3UCall text) s
          let channels := parseM3U text
          let s := renderChannelList channels s
          let s := match channels with
            | ch :: _ => playChannel p ch.url ch.title s
            | [] => s
          { s with statusMsg := "就绪".toList }
        else
          let s := renderSingleChannel p url s
          { s with statusMsg := "就绪".toList }

/-! ## Runs of the controller -/

/-- What can happen to the controller: a call of one of its entry points, the promise of
a native `video.play()` being rejected, or an engine instance firing one of the events it
has a handler for. -/
inductive Event
  | playChannel (p : Platform) (url title : List Char)
  | retryPlayback (p : Platform)
  | stopAndShowError (msg : List Char)
  | nativePlayRejected
  | hlsError (engine : Nat) (data : ErrorData)
  | hlsManifestParsed (engine : Nat)
  deriving DecidableEq, Repr

/-- Whether `engine` still delivers `event` to the script: a handler was registered on it
with `hls.on`, and `destroy()` has not been called on it.  `destroy()` of the `Hls` library
ends all activity of the instance and detaches its handlers, so a destroyed instance
delivers nothing. -/
def handlerAttached (s : Player) (engine : Nat) (event : HlsEvent) : Bool :=
  decide (Effect.hlsOn engine event ∈ s.trace) && decide (Effect.hlsDestroy engine ∉ s.trace)

/-- One event.  An engine event runs its handler if the instance still has it attached;
an exception thrown by the handler ends the handler and leaves the state as it is. -/
def step (s : Player) : Event → Player
  | .playChannel p url title => playChannel p url title s
  | .retryPlayback p => retryPlayback p s
  | .stopAndShowError msg => stopAndShowError msg s
  | .nativePlayRejected => handleError msgNativePlayFailed s
  | .hlsError engine data =>
    if handlerAttached s engine .error then (onHlsError data s).state else s
  | .hlsManifestParsed engine =>
    if handlerAttached s engine .manifestParsed then onManifestParsed s else s

/-- A sequence of events, from a given state. -/
def run (s : Player) (events : List Event) : Player :=
  events.foldl step s

/-- The engine instances constructed so far. -/
def constructed (trace : List Effect) : List Nat :=
  trace.filterMap fun
    | .hlsNew engine => some engine
    | _ => none

/-- The engine instances `destroy` has been called on. -/
def destroyed (trace : List Effect) : List Nat :=
  trace.filterMap fun
    | .hlsDestroy engine => some engine
    | _ => none

/-- The engine instances constructed and not yet destroyed. -/
def liveEngines (trace : List Effect) : List Nat :=
  (constructed trace).filter fun engine => decide (engine ∉ destroyed trace)

/-! ## Auxiliary definitions for the controller proofs -/

/-- Whether an entry of the trace constructs or destroys an engine instance. -/
def Effect.isLifecycle : Effect → Bool
  | .hlsNew _ => true
  | .hlsDestroy _ => true
  | _ => false

/-- What ties the global `hls` to the trace: the live engine instances are exactly the
one `hls` refers to (none if it is `null`), and every instance number in use is below
`nextEngine`. -/
def TraceInv (trace : List Effect) (hls : Option Nat) (nextEngine : Nat) : Prop :=
  liveEngines trace = hls.toList ∧
  (∀ e ∈ constructed trace, e < nextEngine) ∧
  (∀ e ∈ destroyed trace, e < nextEngine)

/-- The invariant `TraceInv` of a controller state. -/
def EngineInv (s : Player) : Prop :=
  TraceInv s.trace s.hls s.nextEngine

/-- Every handler in the trace was registered on an engine constructed in the trace. -/
def HandlersOfConstructed (trace : List Effect) : Prop :=
  ∀ engine event, Effect.hlsOn engine event ∈ trace → Effect.hlsNew engine ∈ trace

/-- The events that activate a channel. -/
def Event.isActivation : Event → Bool
  | .playChannel _ _ _ => true
  | .retryPlayback _ => true
  | _ => false

/-- Whether an entry of the trace is an entry into `playChannel`. -/
def Effect.isPlayChannelCall : Effect → Bool
  | .playChannelCall _ _ => true
  | _ => false

/-- The entries one call `playChannel(url, title)` adds to the trace, read off its three
parts: the entry itself, the teardown of the engine `hls` refers to, and the platform
branch taken. -/
def playChannelEffects (p : Platform) (url title : List Char) (s : Player) : List Effect :=
  [Effect.playChannelCall url title]
    ++ (match s.hls with
        | some engine => [Effect.hlsDestroy engine]
        | none => [])
    ++ (if p.canPlayNative then [Effect.videoPlay]
        else if p.hlsSupported then
          [Effect.hlsNew s.nextEngine, Effect.hlsLoadSource s.nextEngine url,
           Effect.hlsAttachMedia s.nextEngine, Effect.hlsOn s.nextEngine .manifestParsed,
           Effect.hlsOn s.nextEngine .error]
        else [Effect.videoLoad])

/-! ## Auxiliary definitions for the parser proofs -/

/-- The pending title an `#EXTINF:` line sets. -/
def extinfTitle (line : List Char) : List Char :=
  if (split ',' line).length > 1 then (split ',' line).getD 1 [] else unknownChannelTitle

/-- The title a record gets from the pending title. -/
def recordTitle (currentTitle : List Char) : List Char :=
  if currentTitle ≠ [] then currentTitle else unnamedTitle

/-- The pending title after a run of trimmed lines. -/
def pendingAfter : List (List Char) → List Char → List Char
  | [], t => t
  | l :: ls, t =>
    if isExtinfLine l then pendingAfter ls (extinfTitle l)
    else if isUrlLine l then pendingAfter ls []
    else pendingAfter ls t

/-- The records a run of trimmed lines produces, given the pending title at its start. -/
def scan : List (List Char) → List Char → List Channel
  | [], _ => []
  | l :: ls, t =>
    if isExtinfLine l then scan ls (extinfTitle l)
    else if isUrlLine l then ⟨recordTitle t, l⟩ :: scan ls []
    else scan ls t

/-! ## Parser lemmas -/

theorem extinfMarker_eq : extinfMarker = ['#', 'E', 'X', 'T', 'I', 'N', 'F', ':'] := rfl

theorem isExtinfLine_hash (l : List Char) (h : isExtinfLine l = true) :
    startsWith l ['#'] = true := by
  unfold isExtinfLine startsWith at h
  rw [extinfMarker_eq] at h
  cases l with
  | nil => simp [List.isPrefixOf] at h
  | cons c cs =>
    simp only [List.isPrefixOf, Bool.and_eq_true] at h
    simp [startsWith, List.isPrefixOf, h.1]

theorem isExtinfLine_not_url (l : List Char) (h : isExtinfLine l = true) :
    isUrlLine l = false := by
  simp [isUrlLine, isExtinfLine_hash l h]

theorem parseLoop_eq_scan (raws : List (List Char)) (t : List Char) (acc : List Channel) :
    parseLoop raws t acc = acc ++ scan (raws.map trim) t := by
  induction raws generalizing t acc with
  | nil => simp [parseLoop, scan]
  | cons r rs ih =>
    simp only [parseLoop, List.map_cons, scan]
    generalize trim r = l
    by_cases he : isExtinfLine l = true
    · have he' : startsWith l extinfMarker = true := he
      simp [he, he', ih, extinfTitle]
    · have he' : ¬ startsWith l extinfMarker = true := he
      by_cases hu : isUrlLine l = true
      · have hu' : l ≠ [] ∧ ¬ startsWith l ['#'] = true := by
          simpa [isUrlLine] using hu
        simp [he, he', hu, hu'.1, hu'.2, ih, recordTitle]
      · have hu' : ¬ (l ≠ [] ∧ ¬ startsWith l ['#'] = true) := by
          simpa [isUrlLine] using hu
        rw [if_neg he', if_neg hu', ih]
        simp [he, hu]

theorem parseM3U_eq_scan (content : List Char) :
    parseM3U content = scan (trimmedLines content) [] := by
  simp [parseM3U, trimmedLines, parseLoop_eq_scan]

theorem scan_map_url (ls : List (List Char)) (t : List Char) :
    (scan ls t).map Channel.url = ls.filter isUrlLine := by
  induction ls generalizing t with
  | nil => simp [scan]
  | cons l ls ih =>
    simp only [scan]
    by_cases he : isExtinfLine l = true
    · simp [he, ih, isExtinfLine_not_url l he]
    · by_cases hu : isUrlLine l = true
      · simp [he, hu, ih]
      · simp [he, hu, ih]

theorem scan_append (xs ys : List (List Char)) (t : List Char) :
    scan (xs ++ ys) t = scan xs t ++ scan ys (pendingAfter xs t) := by
  induction xs generalizing t with
  | nil => simp [scan, pendingAfter]
  | cons l ls ih =>
    simp only [List.cons_append, scan, pendingAfter]
    by_cases he : isExtinfLine l = true
    · simp [he, ih]
    · by_cases hu : isUrlLine l = true
      · simp [he, hu, ih]
      · simp [he, hu, ih]

theorem scan_length (ls : List (List Char)) (t : List Char) :
    (scan ls t).length = (ls.filter isUrlLine).length := by
  rw [← scan_map_url ls t, List.length_map]

theorem pendingAfter_append (xs ys : List (List Char)) (t : List Char) :
    pendingAfter (xs ++ ys) t = pendingAfter ys (pendingAfter xs t) := by
  induction xs generalizing t with
  | nil => simp [pendingAfter]
  | cons l ls ih =>
    simp only [List.cons_append, pendingAfter]
    by_cases he : isExtinfLine l = true
    · simp [he, ih]
    · by_cases hu : isUrlLine l = true
      · simp [he, hu, ih]
      · simp [he, hu, ih]

theorem pendingAfter_skip (mid : List (List Char)) (t : List Char)
    (h : ∀ l ∈ mid, isExtinfLine l = false ∧ isUrlLine l = false) :
    pendingAfter mid t = t := by
  induction mid with
  | nil => rfl
  | cons l ls ih =>
    have hl := h l (List.mem_cons_self _ _)
    simp only [pendingAfter, hl.1, hl.2]
    exact ih fun x hx => h x (List.mem_cons_of_mem _ hx)

theorem filter_url_skip (mid : List (List Char))
    (h : ∀ l ∈ mid, isExtinfLine l = false ∧ isUrlLine l = false) :
    mid.filter isUrlLine = [] := by
  rw [List.filter_eq_nil_iff]
  intro l hl
  simp [(h l hl).2]

/-- The record emitted for a URL line `u` that follows `pre` in the trimmed lines. -/
theorem scan_at_url (pre post : List (List Char)) (u t : List Char)
    (hu : isUrlLine u = true) :
    (scan (pre ++ u :: post) t)[(pre.filter isUrlLine).length]? =
      some ⟨recordTitle (pendingAfter pre t), u⟩ := by
  have hne : isExtinfLine u = false := by
    cases h : isExtinfLine u with
    | false => rfl
    | true => rw [isExtinfLine_not_url u h] at hu; cases hu
  rw [scan_append, ← scan_length pre t, List.getElem?_append_right (Nat.le_refl _)]
  simp [scan, hne, hu]

theorem split_length_gt_one (sep : Char) (s : List Char) :
    (split sep s).length > 1 ↔ sep ∈ s := by
  induction s with
  | nil => simp [split]
  | cons c cs ih =>
    by_cases hc : c = sep
    · subst hc
      have : (split c cs).length > 0 := by
        cases cs with
        | nil => simp [split]
        | cons d ds => simp only [split]; split <;> [simp; (split <;> simp)]
      simp [split]; omega
    · have hne : ¬ sep = c := fun h => hc h.symm
      simp only [split, hc, if_false, List.mem_cons, hne, false_or]
      rw [← ih]
      cases h : split sep cs with
      | nil => simp
      | cons f fs => simp

theorem parseM3U_map_url (text : List Char) :
    (parseM3U text).map Channel.url = (trimmedLines text).filter isUrlLine := by
  rw [parseM3U_eq_scan, scan_map_url]

theorem parseM3U_url_ne_nil (text : List Char) (r : Channel) (hr : r ∈ parseM3U text) :
    r.url ≠ [] := by
  have hmem : r.url ∈ (trimmedLines text).filter isUrlLine := by
    rw [← parseM3U_map_url]; exact List.mem_map_of_mem _ hr
  have hurl : isUrlLine r.url = true := (List.mem_filter.mp hmem).2
  intro h0
  rw [h0] at hurl
  simp [isUrlLine] at hurl

/-! ## Parser theorems -/

/-- C2: for every playlist text, the `url` fields of `parseM3U text` are, in order, exactly
the trimmed lines of the text (split on `'\n'`) that are non-empty and do not begin with
`'#'`; hence every record has a non-empty `url` and there is one record per such line. -/
theorem parseM3U_urls (text : List Char) :
    (parseM3U text).map Channel.url =
        ((split '\n' text).map trim).filter
          (fun line => decide (line ≠ []) && !startsWith line ['#'])
      ∧ (∀ r ∈ parseM3U text, r.url ≠ [])
      ∧ (parseM3U text).length =
          (((split '\n' text).map trim).filter
            (fun line => decide (line ≠ []) && !startsWith line ['#'])).length := by
  refine ⟨parseM3U_map_url text, parseM3U_url_ne_nil text, ?_⟩
  rw [parseM3U_eq_scan, scan_length]
  rfl

/-- C7: a URL line `u` with no `#EXTINF:` line between it and the previous URL line (or the
start of the text) is emitted with the fallback title `"未命名"` (the "unnamed" literal),
whatever came before: `before` is empty or ends with the previous URL line, `mid` holds
neither `#EXTINF:` lines nor URL lines. -/
theorem parseM3U_no_title_leak (text : List Char) (before mid after : List (List Char))
    (u : List Char)
    (hlines : (split '\n' text).map trim = before ++ mid ++ u :: after)
    (hprev : before = [] ∨ ∃ b p, before = b ++ [p] ∧ isUrlLine p = true)
    (hmid : ∀ l ∈ mid, isExtinfLine l = false ∧ isUrlLine l = false)
    (hu : isUrlLine u = true) :
    (parseM3U text)[(before.filter isUrlLine).length]? = some ⟨unnamedTitle, u⟩ := by
  have hpend : pendingAfter (before ++ mid) [] = [] := by
    rw [pendingAfter_append, pendingAfter_skip mid _ hmid]
    rcases hprev with h0 | ⟨b, p, hb, hp⟩
    · subst h0; rfl
    · subst hb
      have hpe : isExtinfLine p = false := by
        cases h : isExtinfLine p with
        | false => rfl
        | true => rw [isExtinfLine_not_url p h] at hp; cases hp
      rw [pendingAfter_append]
      simp [pendingAfter, hpe, hp]
  have hcount : (before.filter isUrlLine).length = ((before ++ mid).filter isUrlLine).length := by
    rw [List.filter_append, filter_url_skip mid hmid, List.append_nil]
  have hscan := scan_at_url (before ++ mid) after u [] hu
  rw [hpend] at hscan
  rw [parseM3U_eq_scan, trimmedLines, hlines, hcount, hscan]
  rfl

/-- C7, at the playlist of the specification: the second URL line has no `#EXTINF:` line
of its own and gets `"未命名"`, not the title of the first record. -/
theorem parseM3U_no_title_leak_witness :
    ((split '\n' "#EXTM3U\n#EXTINF:-1,Channel A\nhttp://x/a.m3u8\nhttp://x/b.m3u8\n#EXTINF:-1,Channel C\nhttp://x/c.m3u8".toList).map trim =
        ["#EXTM3U".toList, "#EXTINF:-1,Channel A".toList, "http://x/a.m3u8".toList] ++ []
          ++ "http://x/b.m3u8".toList :: ["#EXTINF:-1,Channel C".toList, "http://x/c.m3u8".toList])
      ∧ isUrlLine "http://x/a.m3u8".toList = true
      ∧ isUrlLine "http://x/b.m3u8".toList = true
      ∧ parseM3U "#EXTM3U\n#EXTINF:-1,Channel A\nhttp://x/a.m3u8\nhttp://x/b.m3u8\n#EXTINF:-1,Channel C\nhttp://x/c.m3u8".toList =
          [⟨"Channel A".toList, "http://x/a.m3u8".toList⟩,
           ⟨"未命名".toList, "http://x/b.m3u8".toList⟩,
           ⟨"Channel C".toList, "http://x/c.m3u8".toList⟩]
      ∧ (parseM3U "#EXTM3U\n#EXTINF:-1,Channel A\nhttp://x/a.m3u8\nhttp://x/b.m3u8\n#EXTINF:-1,Channel C\nhttp://x/c.m3u8".toList)[
            (["#EXTM3U".toList, "#EXTINF:-1,Channel A".toList, "http://x/a.m3u8".toList].filter
              isUrlLine).length]? =
          some ⟨unnamedTitle, "http://x/b.m3u8".toList⟩ :=
  ⟨by decide, by decide, by decide, by decide,
   parseM3U_no_title_leak _
     ["#EXTM3U".toList, "#EXTINF:-1,Channel A".toList, "http://x/a.m3u8".toList] []
     ["#EXTINF:-1,Channel C".toList, "http://x/c.m3u8".toList] "http://x/b.m3u8".toList
     (by decide)
     (Or.inr ⟨["#EXTM3U".toList, "#EXTINF:-1,Channel A".toList], "http://x/a.m3u8".toList,
       by decide, by decide⟩)
     (by intro l hl; cases hl) (by decide)⟩

/-- C8 fails as stated: in `"#EXTINF:-1,\nhttp://x/a.m3u8"` the `#EXTINF:` line contains a
`','` and its second field is the empty string, yet the record's title is `"未命名"`, not
that field. -/
theorem parseM3U_empty_field_counterexample :
    (split '\n' "#EXTINF:-1,\nhttp://x/a.m3u8".toList).map trim =
        ["#EXTINF:-1,".toList, "http://x/a.m3u8".toList]
      ∧ isExtinfLine "#EXTINF:-1,".toList = true
      ∧ ',' ∈ "#EXTINF:-1,".toList
      ∧ (split ',' "#EXTINF:-1,".toList).getD 1 ['?'] = []
      ∧ parseM3U "#EXTINF:-1,\nhttp://x/a.m3u8".toList =
          [⟨"未命名".toList, "http://x/a.m3u8".toList⟩]
      ∧ (parseM3U "#EXTINF:-1,\nhttp://x/a.m3u8".toList)[0]? ≠
          some ⟨(split ',' "#EXTINF:-1,".toList).getD 1 [], "http://x/a.m3u8".toList⟩ := by
  decide

/-- C8 (amended): for a URL line `u` whose last preceding `#EXTINF:` line is `e` (only
lines that are neither `#EXTINF:` nor URL lines stand between them): if `e` contains a
`','`, the title is the second comma-separated field of `e` verbatim when that field is
non-empty and `"未命名"` when it is empty; if `e` contains no `','`, the title is
`"未知频道"`.  Lines before `e` have no influence. -/
theorem parseM3U_title_of_last_extinf (text : List Char) (pre mid post : List (List Char))
    (e u : List Char)
    (hlines : (split '\n' text).map trim = pre ++ e :: (mid ++ u :: post))
    (he : isExtinfLine e = true)
    (hmid : ∀ l ∈ mid, isExtinfLine l = false ∧ isUrlLine l = false)
    (hu : isUrlLine u = true) :
    (parseM3U text)[(pre.filter isUrlLine).length]? =
      some ⟨if ',' ∈ e then
              (if (split ',' e).getD 1 [] ≠ [] then (split ',' e).getD 1 [] else unnamedTitle)
            else unknownChannelTitle, u⟩ := by
  have hsplit : pre ++ e :: (mid ++ u :: post) = (pre ++ e :: mid) ++ u :: post := by simp
  have hpend : pendingAfter (pre ++ e :: mid) [] = extinfTitle e := by
    rw [pendingAfter_append]
    simp only [pendingAfter, he, if_true]
    exact pendingAfter_skip mid _ hmid
  have hcount : (pre.filter isUrlLine).length = ((pre ++ e :: mid).filter isUrlLine).length := by
    rw [List.filter_append, List.filter_cons, isExtinfLine_not_url e he]
    simp [filter_url_skip mid hmid]
  have hscan := scan_at_url (pre ++ e :: mid) post u [] hu
  rw [hpend] at hscan
  rw [parseM3U_eq_scan, trimmedLines, hlines, hsplit, hcount, hscan]
  congr 2
  unfold recordTitle extinfTitle
  by_cases hc : ',' ∈ e
  · have hlen : (split ',' e).length > 1 := (split_length_gt_one ',' e).mpr hc
    simp [hc, hlen]
  · have hlen : ¬ (split ',' e).length > 1 := fun h => hc ((split_length_gt_one ',' e).mp h)
    have hne : unknownChannelTitle ≠ [] := by decide
    simp [hc, hlen, hne]

/-- C8 (amended), at `"#EXTINF:0,Old\n#EXTINF:-1, News ,HD\n\n#EXTVLCOPT:x\nhttp://x/a.m3u8"`:
the last `#EXTINF:` line wins and its second field is taken verbatim. -/
theorem parseM3U_title_of_last_extinf_witness :
    ((split '\n' "#EXTINF:0,Old\n#EXTINF:-1, News ,HD\n\n#EXTVLCOPT:x\nhttp://x/a.m3u8".toList).map trim =
        ["#EXTINF:0,Old".toList] ++ "#EXTINF:-1, News ,HD".toList ::
          (["".toList, "#EXTVLCOPT:x".toList] ++ "http://x/a.m3u8".toList :: []))
      ∧ isExtinfLine "#EXTINF:-1, News ,HD".toList = true
      ∧ isUrlLine "http://x/a.m3u8".toList = true
      ∧ (parseM3U "#EXTINF:0,Old\n#EXTINF:-1, News ,HD\n\n#EXTVLCOPT:x\nhttp://x/a.m3u8".toList)[
            (["#EXTINF:0,Old".toList].filter isUrlLine).length]? =
          some ⟨" News ".toList, "http://x/a.m3u8".toList⟩ :=
  ⟨by decide, by decide, by decide,
   (parseM3U_title_of_last_extinf _ ["#EXTINF:0,Old".toList] ["".toList, "#EXTVLCOPT:x".toList] []
      "#EXTINF:-1, News ,HD".toList "http://x/a.m3u8".toList (by decide) (by decide)
      (by decide) (by decide)).trans (by decide)⟩

/-! ## Controller lemmas -/

theorem liveEngines_append_destroy (tr : List Effect) (e : Nat) :
    liveEngines (tr ++ [Effect.hlsDestroy e]) = (liveEngines tr).filter fun x => decide (x ≠ e) := by
  simp only [liveEngines, constructed, destroyed, List.filterMap_append, List.filterMap_cons,
    List.filterMap_nil, List.append_nil, List.filter_filter]
  apply List.filter_congr
  intro x _
  simp [List.mem_append, not_or, and_comm]

theorem liveEngines_append_new (tr : List Effect) (n : Nat) (h : n ∉ destroyed tr) :
    liveEngines (tr ++ [Effect.hlsNew n]) = liveEngines tr ++ [n] := by
  simp only [liveEngines, constructed, destroyed, List.filterMap_append, List.filterMap_cons,
    List.filterMap_nil, List.append_nil, List.filter_append]
  congr 1
  simpa [destroyed] using h

theorem TraceInv_other (tr : List Effect) (h : Option Nat) (n : Nat) (x : Effect)
    (hx : x.isLifecycle = false) (hinv : TraceInv tr h n) : TraceInv (tr ++ [x]) h n := by
  obtain ⟨hl, hc, hd⟩ := hinv
  have hcx : constructed (tr ++ [x]) = constructed tr := by
    cases x <;> simp [constructed, List.filterMap_append, Effect.isLifecycle] at hx ⊢
  have hdx : destroyed (tr ++ [x]) = destroyed tr := by
    cases x <;> simp [destroyed, List.filterMap_append, Effect.isLifecycle] at hx ⊢
  refine ⟨?_, ?_, ?_⟩
  · unfold liveEngines at hl ⊢
    rw [hcx, hdx]; exact hl
  · rw [hcx]; exact hc
  · rw [hdx]; exact hd

theorem TraceInv_destroy (tr : List Effect) (e n : Nat) (hinv : TraceInv tr (some e) n) :
    TraceInv (tr ++ [Effect.hlsDestroy e]) none n := by
  obtain ⟨hl, hc, hd⟩ := hinv
  have he : e ∈ constructed tr := by
    have : e ∈ liveEngines tr := by rw [hl]; simp
    exact (List.mem_filter.mp this).1
  refine ⟨?_, ?_, ?_⟩
  · rw [liveEngines_append_destroy, hl]; simp
  · simpa [constructed, List.filterMap_append] using hc
  · intro x hx
    simp only [destroyed, List.filterMap_append, List.filterMap_cons, List.filterMap_nil,
      List.mem_append, List.mem_singleton] at hx
    rcases hx with hx | hx
    · exact hd x hx
    · rw [hx]; exact hc e he

theorem TraceInv_new (tr : List Effect) (n : Nat) (hinv : TraceInv tr none n) :
    TraceInv (tr ++ [Effect.hlsNew n]) (some n) (n + 1) := by
  obtain ⟨hl, hc, hd⟩ := hinv
  have hfresh : n ∉ destroyed tr := fun hmem => Nat.lt_irrefl n (hd n hmem)
  refine ⟨?_, ?_, ?_⟩
  · rw [liveEngines_append_new tr n hfresh, hl]; rfl
  · intro x hx
    simp only [constructed, List.filterMap_append, List.filterMap_cons, List.filterMap_nil,
      List.mem_append, List.mem_singleton] at hx
    rcases hx with hx | hx
    · exact Nat.lt_succ_of_lt (hc x hx)
    · rw [hx]; exact Nat.lt_succ_self n
  · intro x hx
    have hx' : x ∈ destroyed tr := by
      simpa [destroyed, List.filterMap_append] using hx
    exact Nat.lt_succ_of_lt (hd x hx')

theorem EngineInv_stopAndShowError (msg : List Char) (s : Player) (h : EngineInv s) :
    EngineInv (stopAndShowError msg s) := by
  unfold EngineInv at h ⊢
  cases hh : s.hls with
  | none =>
    rw [hh] at h
    simp only [stopAndShowError, emit, hh]
    exact TraceInv_other _ _ _ _ rfl h
  | some e =>
    rw [hh] at h
    simp only [stopAndShowError, emit, hh]
    exact TraceInv_other _ _ _ _ rfl (TraceInv_destroy _ _ _ h)

theorem EngineInv_playChannel (p : Platform) (url title : List Char) (s : Player)
    (h : EngineInv s) : EngineInv (playChannel p url title s) := by
  unfold EngineInv at h ⊢
  have h0 : TraceInv (s.trace ++ [Effect.playChannelCall url title]) s.hls s.nextEngine :=
    TraceInv_other _ _ _ _ rfl h
  cases hh : s.hls with
  | none =>
    rw [hh] at h0
    cases hn : p.canPlayNative <;> cases hs : p.hlsSupported <;>
      simp only [playChannel, stopAndShowError, hideError, emit, hh, hn, hs, if_true, if_false,
        Bool.false_eq_true]
    · exact TraceInv_other _ _ _ _ rfl h0
    · exact TraceInv_other _ _ _ _ rfl (TraceInv_other _ _ _ _ rfl
        (TraceInv_other _ _ _ _ rfl (TraceInv_other _ _ _ _ rfl (TraceInv_new _ _ h0))))
    · exact TraceInv_other _ _ _ _ rfl h0
    · exact TraceInv_other _ _ _ _ rfl h0
  | some e =>
    rw [hh] at h0
    have h1 := TraceInv_destroy _ _ _ h0
    cases hn : p.canPlayNative <;> cases hs : p.hlsSupported <;>
      simp only [playChannel, stopAndShowError, hideError, emit, hh, hn, hs, if_true, if_false,
        Bool.false_eq_true]
    · exact TraceInv_other _ _ _ _ rfl h1
    · exact TraceInv_other _ _ _ _ rfl (TraceInv_other _ _ _ _ rfl
        (TraceInv_other _ _ _ _ rfl (TraceInv_other _ _ _ _ rfl (TraceInv_new _ _ h1))))
    · exact TraceInv_other _ _ _ _ rfl h1
    · exact TraceInv_other _ _ _ _ rfl h1

theorem EngineInv_onHlsError (data : ErrorData) (s : Player) (h : EngineInv s) :
    EngineInv (onHlsError data s).state := by
  obtain ⟨fatal, type⟩ := data
  cases fatal with
  | false => exact h
  | true =>
    cases type with
    | otherError => exact EngineInv_stopAndShowError _ s h
    | networkError =>
      cases hh : s.hls with
      | none => simpa [onHlsError, hh, Outcome.state] using h
      | some e =>
        simp only [onHlsError, hh, Outcome.state, emit, EngineInv, Bool.not_true,
          Bool.false_eq_true, if_false]
        have h' : TraceInv s.trace (some e) s.nextEngine := by
          unfold EngineInv at h; rw [hh] at h; exact h
        exact TraceInv_other _ _ _ _ rfl h'
    | mediaError =>
      cases hh : s.hls with
      | none => simpa [onHlsError, hh, Outcome.state] using h
      | some e =>
        simp only [onHlsError, hh, Outcome.state, emit, EngineInv, Bool.not_true,
          Bool.false_eq_true, if_false]
        have h' : TraceInv s.trace (some e) s.nextEngine := by
          unfold EngineInv at h; rw [hh] at h; exact h
        exact TraceInv_other _ _ _ _ rfl h'

theorem EngineInv_step (s : Player) (ev : Event) (h : EngineInv s) : EngineInv (step s ev) := by
  cases ev with
  | playChannel p url title => exact EngineInv_playChannel p url title s h
  | retryPlayback p =>
    simp only [step, retryPlayback]
    split
    · exact EngineInv_playChannel _ _ _ s h
    · exact h
  | stopAndShowError msg => exact EngineInv_stopAndShowError msg s h
  | nativePlayRejected => exact EngineInv_stopAndShowError _ s h
  | hlsError engine data =>
    simp only [step]
    split
    · exact EngineInv_onHlsError data s h
    · exact h
  | hlsManifestParsed engine =>
    simp only [step]
    split
    · exact TraceInv_other _ _ _ _ rfl h
    · exact h

theorem EngineInv_run (events : List Event) (s : Player) (h : EngineInv s) :
    EngineInv (run s events) := by
  induction events generalizing s with
  | nil => exact h
  | cons ev evs ih => exact ih (step s ev) (EngineInv_step s ev h)

theorem EngineInv_of_fresh (s : Player) (hh : s.hls = none) (ht : s.trace = []) :
    EngineInv s := by
  unfold EngineInv
  rw [hh, ht]
  exact ⟨rfl, by simp [constructed], by simp [destroyed]⟩

theorem playChannel_trace (p : Platform) (url title : List Char) (s : Player) :
    (playChannel p url title s).trace = s.trace ++ playChannelEffects p url title s := by
  cases hh : s.hls <;> cases hn : p.canPlayNative <;> cases hs : p.hlsSupported <;>
    simp [playChannel, playChannelEffects, stopAndShowError, hideError, emit, hh, hn, hs]

theorem step_currentUrl (s : Player) (ev : Event) (h : ev.isActivation = false) :
    (step s ev).currentUrl = s.currentUrl ∧ (step s ev).currentTitle = s.currentTitle := by
  cases ev with
  | playChannel p url title => simp [Event.isActivation] at h
  | retryPlayback p => simp [Event.isActivation] at h
  | stopAndShowError msg =>
    cases hh : s.hls <;> simp [step, stopAndShowError, emit, hh]
  | nativePlayRejected =>
    cases hh : s.hls <;> simp [step, handleError, stopAndShowError, emit, hh]
  | hlsError engine data =>
    obtain ⟨fatal, type⟩ := data
    simp only [step]
    split
    · cases fatal <;> cases type <;> cases hh : s.hls <;>
        simp [onHlsError, Outcome.state, stopAndShowError, emit, hh]
    · exact ⟨rfl, rfl⟩
  | hlsManifestParsed engine =>
    simp only [step]
    split
    · exact ⟨rfl, rfl⟩
    · exact ⟨rfl, rfl⟩

theorem run_currentUrl (events : List Event) (s : Player)
    (h : ∀ ev ∈ events, ev.isActivation = false) :
    (run s events).currentUrl = s.currentUrl ∧ (run s events).currentTitle = s.currentTitle := by
  induction events generalizing s with
  | nil => exact ⟨rfl, rfl⟩
  | cons ev evs ih =>
    have h1 := step_currentUrl s ev (h ev (List.mem_cons_self _ _))
    have h2 := ih (step s ev) fun x hx => h x (List.mem_cons_of_mem _ hx)
    exact ⟨h2.1.trans h1.1, h2.2.trans h1.2⟩

/-! ## Controller theorems -/

/-- C1: in every state reached from a start state with `hls = null` and no engine yet, by
any sequence of `playChannel`, `retryPlayback`, `stopAndShowError` and engine events, at
most one engine instance is constructed and not destroyed; and when a further
`playChannel` call constructs an engine (`hlsNew n` among the entries it adds), `destroy`
has been called on every engine live before the call, earlier in the same call. -/
theorem single_engine_invariant (s0 : Player) (h0 : s0.hls = none) (ht : s0.trace = [])
    (events : List Event) :
    (liveEngines (run s0 events).trace).length ≤ 1 ∧
      ∀ (p : Platform) (url title : List Char) (e n : Nat) (pre post : List Effect),
        e ∈ liveEngines (run s0 events).trace →
        (playChannel p url title (run s0 events)).trace =
          (run s0 events).trace ++ (pre ++ Effect.hlsNew n :: post) →
        Effect.hlsDestroy e ∈ pre := by
  have hinv := EngineInv_run events s0 (EngineInv_of_fresh s0 h0 ht)
  generalize run s0 events = s at hinv ⊢
  obtain ⟨hl, -, -⟩ := hinv
  constructor
  · rw [hl]; cases s.hls <;> simp
  · intro p url title e n pre post he htr
    rw [hl] at he
    have hh : s.hls = some e := by
      cases hs : s.hls with
      | none => rw [hs] at he; simp at he
      | some x => rw [hs] at he; simp at he; rw [he]
    rw [playChannel_trace] at htr
    have hd := List.append_cancel_left htr
    cases hn : p.canPlayNative <;> cases hs : p.hlsSupported <;>
      simp only [playChannelEffects, hh, hn, hs, if_true, if_false, Bool.false_eq_true,
        List.cons_append, List.nil_append] at hd <;>
      rcases pre with _ | ⟨a, _ | ⟨b, pre⟩⟩ <;> simp at hd <;> simp [hd]

/-- C1, on a run that starts a stream and then switches channel: one engine is live, and
the switch destroys engine 0 before it constructs engine 1. -/
theorem single_engine_invariant_witness :
    initial.hls = none ∧ initial.trace = [] ∧
      (liveEngines (run initial
        [Event.playChannel ⟨false, true⟩ ['a'] ['A'], Event.stopAndShowError ['m'],
         Event.retryPlayback ⟨false, true⟩]).trace).length ≤ 1 ∧
      Effect.hlsDestroy 1 ∈ [Effect.playChannelCall ['b'] ['B'], Effect.hlsDestroy 1] :=
  ⟨rfl, rfl,
   (single_engine_invariant initial rfl rfl
      [Event.playChannel ⟨false, true⟩ ['a'] ['A'], Event.stopAndShowError ['m'],
       Event.retryPlayback ⟨false, true⟩]).1,
   (single_engine_invariant initial rfl rfl
      [Event.playChannel ⟨false, true⟩ ['a'] ['A'], Event.stopAndShowError ['m'],
       Event.retryPlayback ⟨false, true⟩]).2 ⟨false, true⟩ ['b'] ['B'] 1 2
      [Effect.playChannelCall ['b'] ['B'], Effect.hlsDestroy 1]
      [Effect.hlsLoadSource 2 ['b'], Effect.hlsAttachMedia 2,
       Effect.hlsOn 2 HlsEvent.manifestParsed, Effect.hlsOn 2 HlsEvent.error]
      (by decide) (by decide)⟩

/-- C3: in every state with a live engine `e`, a fatal error whose type is neither network
nor media makes the handler return with `destroy` called on `e` and `hls` set to `null`,
the `src` of the video element removed and `video.load()` called, and the overlay shown
with a non-empty message; `currentUrl` and every other field stay as they were. -/
theorem fatal_other_error_tears_down (s : Player) (e : Nat) (h : s.hls = some e) :
    onHlsError ⟨true, ErrorType.otherError⟩ s =
        Outcome.returned
          { s with
            hls := none
            videoSrc := none
            errorDetail := msgResourceInvalid
            errorOverlayDisplay := Display.flex
            trace := s.trace ++ [Effect.hlsDestroy e, Effect.videoLoad] }
      ∧ msgResourceInvalid ≠ []
      ∧ (onHlsError ⟨true, ErrorType.otherError⟩ s).state.currentUrl = s.currentUrl := by
  refine ⟨?_, by decide, ?_⟩ <;>
    simp [onHlsError, stopAndShowError, emit, h, Outcome.state]

/-- C3, at the state right after a first `playChannel` on a host that needs the engine. -/
theorem fatal_other_error_tears_down_witness :
    (playChannel ⟨false, true⟩ ['a'] ['A'] initial).hls = some 0 ∧
      onHlsError ⟨true, ErrorType.otherError⟩ (playChannel ⟨false, true⟩ ['a'] ['A'] initial) =
        Outcome.returned
          { playChannel ⟨false, true⟩ ['a'] ['A'] initial with
            hls := none
            videoSrc := none
            errorDetail := msgResourceInvalid
            errorOverlayDisplay := Display.flex
            trace := (playChannel ⟨false, true⟩ ['a'] ['A'] initial).trace
              ++ [Effect.hlsDestroy 0, Effect.videoLoad] } :=
  ⟨rfl, (fatal_other_error_tears_down (playChannel ⟨false, true⟩ ['a'] ['A'] initial) 0 rfl).1⟩

/-- C4: in every state with a live engine `e`, one fatal network error makes the handler
return with exactly one entry added to the trace, `startLoad` on `e`: no `destroy`, no new
engine, and `hls`, `currentUrl`, the video `src` and the overlay as they were. -/
theorem fatal_network_error_restarts_load (s : Player) (e : Nat) (h : s.hls = some e) :
    onHlsError ⟨true, ErrorType.networkError⟩ s =
        Outcome.returned { s with trace := s.trace ++ [Effect.hlsStartLoad e] }
      ∧ (onHlsError ⟨true, ErrorType.networkError⟩ s).state.hls = some e
      ∧ (onHlsError ⟨true, ErrorType.networkError⟩ s).state.currentUrl = s.currentUrl
      ∧ (onHlsError ⟨true, ErrorType.networkError⟩ s).state.videoSrc = s.videoSrc
      ∧ (onHlsError ⟨true, ErrorType.networkError⟩ s).state.errorOverlayDisplay =
          s.errorOverlayDisplay
      ∧ liveEngines (onHlsError ⟨true, ErrorType.networkError⟩ s).state.trace =
          liveEngines s.trace := by
  refine ⟨?_, ?_, ?_, ?_, ?_, ?_⟩ <;>
    simp [onHlsError, emit, h, Outcome.state, liveEngines, constructed, destroyed,
      List.filterMap_append]

/-- C4, at the state right after a first `playChannel` on a host that needs the engine. -/
theorem fatal_network_error_restarts_load_witness :
    (playChannel ⟨false, true⟩ ['a'] ['A'] initial).hls = some 0 ∧
      onHlsError ⟨true, ErrorType.networkError⟩ (playChannel ⟨false, true⟩ ['a'] ['A'] initial) =
        Outcome.returned
          { playChannel ⟨false, true⟩ ['a'] ['A'] initial with
            trace := (playChannel ⟨false, true⟩ ['a'] ['A'] initial).trace
              ++ [Effect.hlsStartLoad 0] } :=
  ⟨rfl,
   (fatal_network_error_restarts_load (playChannel ⟨false, true⟩ ['a'] ['A'] initial) 0 rfl).1⟩

/-- C5: let `playChannel(u, t)` with a non-empty `u` be the last activation, followed by any
events that are not activations and then by `stopAndShowError`.  In that state the overlay
is shown, `retryPlayback()` is exactly the call `playChannel(u, t)`, and after it the
overlay is hidden whenever the host can play at all.  In a state with an empty `currentUrl`
`retryPlayback()` changes nothing. -/
theorem retryPlayback_reactivates (p q : Platform) (u t msg : List Char) (s s1 : Player)
    (between : List Event) (hu : u ≠ [])
    (hb : ∀ ev ∈ between, ev.isActivation = false) :
    (stopAndShowError msg (run (playChannel p u t s) between)).errorOverlayDisplay = Display.flex
      ∧ retryPlayback q (stopAndShowError msg (run (playChannel p u t s) between)) =
          playChannel q u t (stopAndShowError msg (run (playChannel p u t s) between))
      ∧ (q.canPlayNative = true ∨ q.hlsSupported = true →
          (retryPlayback q
            (stopAndShowError msg (run (playChannel p u t s) between))).errorOverlayDisplay =
            Display.none)
      ∧ retryPlayback q { s1 with currentUrl := [] } = { s1 with currentUrl := [] } := by
  have hrun := run_currentUrl between (playChannel p u t s) hb
  have hplay : (playChannel p u t s).currentUrl = u ∧ (playChannel p u t s).currentTitle = t := by
    cases hh : s.hls <;> cases hn : p.canPlayNative <;> cases hs : p.hlsSupported <;>
      simp [playChannel, stopAndShowError, hideError, emit, hh, hn, hs]
  generalize run (playChannel p u t s) between = r at hrun ⊢
  have hstop : (stopAndShowError msg r).currentUrl = u ∧
      (stopAndShowError msg r).currentTitle = t := by
    constructor
    · rw [← hplay.1, ← hrun.1]
      cases hh : r.hls <;> simp [stopAndShowError, emit, hh]
    · rw [← hplay.2, ← hrun.2]
      cases hh : r.hls <;> simp [stopAndShowError, emit, hh]
  have hretry : retryPlayback q (stopAndShowError msg r) =
      playChannel q u t (stopAndShowError msg r) := by
    unfold retryPlayback
    rw [hstop.1, hstop.2, if_pos hu]
  refine ⟨?_, hretry, ?_, ?_⟩
  · cases hh : r.hls <;> simp [stopAndShowError, emit, hh]
  · intro hq
    rw [hretry]
    generalize stopAndShowError msg r = f
    cases hh : f.hls <;> cases hn : q.canPlayNative <;> cases hs : q.hlsSupported <;>
      simp [playChannel, hideError, emit, hh, hn, hs] <;> simp [hn, hs] at hq
  · simp [retryPlayback]

/-- C5, for a stream that hit a fatal network error and then an unrecoverable one. -/
theorem retryPlayback_reactivates_witness :
    ['a'] ≠ ([] : List Char)
      ∧ (∀ ev ∈ [Event.hlsError 0 ⟨true, ErrorType.networkError⟩], ev.isActivation = false)
      ∧ retryPlayback ⟨false, true⟩
          (stopAndShowError ['m'] (run (playChannel ⟨false, true⟩ ['a'] ['A'] initial)
            [Event.hlsError 0 ⟨true, ErrorType.networkError⟩])) =
        playChannel ⟨false, true⟩ ['a'] ['A']
          (stopAndShowError ['m'] (run (playChannel ⟨false, true⟩ ['a'] ['A'] initial)
            [Event.hlsError 0 ⟨true, ErrorType.networkError⟩])) :=
  ⟨by decide, by decide,
   (retryPlayback_reactivates ⟨false, true⟩ ⟨false, true⟩ ['a'] ['A'] ['m'] initial initial
      [Event.hlsError 0 ⟨true, ErrorType.networkError⟩] (by decide) (by decide)).2.1⟩

/-! ## Resolver lemmas -/

theorem dropWhile_append_of_head (f : Char → Bool) (pre suf : List Char) (c : Char)
    (cs : List Char) (hs : suf = c :: cs) (hc : f c = false) :
    ∃ pre', (pre ++ suf).dropWhile f = pre' ++ suf := by
  induction pre with
  | nil => exact ⟨[], by simp [hs, List.dropWhile, hc]⟩
  | cons a as ih =>
    by_cases ha : f a = true
    · obtain ⟨pre', hp⟩ := ih
      exact ⟨pre', by simp [List.dropWhile, ha, hp]⟩
    · exact ⟨a :: as, by simp [List.dropWhile, ha]⟩

/-- An input that ends with `'.m3u8'` before trimming still does after it. -/
theorem endsWith_trim_m3u8 (input : List Char)
    (h : endsWith input ".m3u8".toList = true) :
    endsWith (trim input) ".m3u8".toList = true ∧ trim input ≠ [] := by
  have hsuf : ".m3u8".toList = ['.', 'm', '3', 'u', '8'] := rfl
  rw [hsuf] at h ⊢
  simp only [endsWith, List.isSuffixOf_iff_suffix] at h ⊢
  obtain ⟨pre, rfl⟩ := h
  obtain ⟨pre', hp⟩ :=
    dropWhile_append_of_head isJsWhitespace pre ['.', 'm', '3', 'u', '8'] '.'
      ['m', '3', 'u', '8'] rfl (by decide)
  have h8 : isJsWhitespace '8' = false := by decide
  have htrim : trim (pre ++ ['.', 'm', '3', 'u', '8']) = pre' ++ ['.', 'm', '3', 'u', '8'] := by
    unfold trim
    rw [hp]
    simp [List.dropWhile, h8]
  rw [htrim]
  exact ⟨⟨pre', rfl⟩, by simp⟩

/-- Every `playChannel` call that `loadSource` makes has a non-empty `url`. -/
theorem loadSource_plays_nonempty (p : Platform) (fetch : List Char → FetchOutcome)
    (input : List Char) (s : Player) :
    ∃ added, (loadSource p fetch input s).trace = s.trace ++ added ∧
      ∀ url title, Effect.playChannelCall url title ∈ added → url ≠ [] := by
  have hplay : ∀ (u t : List Char) (r : Player), u ≠ [] →
      ∀ url title, Effect.playChannelCall url title ∈ playChannelEffects p u t r → url ≠ [] := by
    intro u t r hu url title hmem
    cases hh : r.hls <;> cases hn : p.canPlayNative <;> cases hs : p.hlsSupported <;>
      simp [playChannelEffects, hh, hn, hs] at hmem <;> rw [hmem.1] <;> exact hu
  have hsingle : ∀ (r : Player), trim input ≠ [] →
      ∃ added, (renderSingleChannel p (trim input) r).trace = r.trace ++ added ∧
        ∀ url title, Effect.playChannelCall url title ∈ added → url ≠ [] := by
    intro r hne
    refine ⟨playChannelEffects p (trim input) singleChannelTitle r, ?_, ?_⟩
    · simp only [renderSingleChannel, playChannel_trace]; rfl
    · exact hplay _ _ _ hne
  unfold loadSource
  by_cases hne : trim input = []
  · simp only [hne, if_true]
    exact ⟨[Effect.alert "请输入链接".toList], rfl, by simp⟩
  · simp only [if_neg hne]
    split
    · exact hsingle _ hne
    · have hfetch : ∀ (r : Player), r.trace = s.trace ++ [Effect.fetch (trim input)] →
          ∃ added, (renderSingleChannel p (trim input) r).trace = s.trace ++ added ∧
            ∀ url title, Effect.playChannelCall url title ∈ added → url ≠ [] := by
        intro r hr
        obtain ⟨added, h1, h2⟩ := hsingle r hne
        refine ⟨Effect.fetch (trim input) :: added, ?_, ?_⟩
        · rw [h1, hr]; simp
        · intro url title hmem
          simp at hmem
          exact h2 url title hmem
      split
      · exact hfetch _ rfl
      · exact hfetch _ rfl
      · exact hfetch _ rfl
      · rename_i text _
        split
        · cases hch : parseM3U text with
          | nil =>
            exact ⟨[Effect.fetch (trim input), Effect.parseM3UCall text],
              by simp [renderChannelList, emit], by simp⟩
          | cons ch rest =>
            have hurl : ch.url ≠ [] :=
              parseM3U_url_ne_nil text ch (by rw [hch]; exact List.mem_cons_self _ _)
            refine ⟨Effect.fetch (trim input) :: Effect.parseM3UCall text ::
              playChannelEffects p ch.url ch.title s, ?_, ?_⟩
            · simp [playChannel_trace, renderChannelList, emit, playChannelEffects]
            · intro url title hmem
              simp at hmem
              exact hplay _ _ _ hurl url title hmem
        · exact hfetch _ rfl

/-! ## Resolver theorem -/

/-- C6: if the trimmed input is non-empty and ends with `'.m3u8'`, then whatever `fetch`
would answer, `loadSource` is `renderSingleChannel` on the trimmed input between the two
status texts, and the entries it adds to the trace hold no `fetch`, no entry into
`parseM3U`, and exactly one entry into `playChannel`, with the trimmed input as `url`. -/
theorem loadSource_m3u8_direct (p : Platform) (fetch : List Char → FetchOutcome)
    (input : List Char) (s : Player)
    (hne : trim input ≠ []) (hsuf : endsWith (trim input) ".m3u8".toList = true) :
    loadSource p fetch input s =
        { renderSingleChannel p (trim input) { s with statusMsg := "正在解析...".toList } with
          statusMsg := "就绪".toList }
      ∧ ∃ added, (loadSource p fetch input s).trace = s.trace ++ added
          ∧ (∀ url, Effect.fetch url ∉ added)
          ∧ (∀ content, Effect.parseM3UCall content ∉ added)
          ∧ added.filter Effect.isPlayChannelCall =
              [Effect.playChannelCall (trim input) singleChannelTitle] := by
  have heq : loadSource p fetch input s =
      { renderSingleChannel p (trim input) { s with statusMsg := "正在解析...".toList } with
        statusMsg := "就绪".toList } := by
    simp only [loadSource, if_neg hne, if_pos hsuf]
  refine ⟨heq, playChannelEffects p (trim input) singleChannelTitle s, ?_, ?_, ?_, ?_⟩
  · rw [heq]
    simp only [renderSingleChannel, playChannel_trace]
    rfl
  · intro url
    cases hh : s.hls <;> cases hn : p.canPlayNative <;> cases hs : p.hlsSupported <;>
      simp [playChannelEffects, hh, hn, hs]
  · intro content
    cases hh : s.hls <;> cases hn : p.canPlayNative <;> cases hs : p.hlsSupported <;>
      simp [playChannelEffects, hh, hn, hs]
  · cases hh : s.hls <;> cases hn : p.canPlayNative <;> cases hs : p.hlsSupported <;>
      simp [playChannelEffects, hh, hn, hs, Effect.isPlayChannelCall]

/-- C6, for the input `" http://x/a.m3u8 "` and a `fetch` that would have delivered a
playlist: nothing is fetched or parsed, the address is played as it is. -/
theorem loadSource_m3u8_direct_witness :
    trim " http://x/a.m3u8 ".toList ≠ []
      ∧ endsWith (trim " http://x/a.m3u8 ".toList) ".m3u8".toList = true
      ∧ (loadSource ⟨false, true⟩
            (fun _ => FetchOutcome.response true (some "#EXTM3U\nhttp://x/b.ts".toList))
            " http://x/a.m3u8 ".toList initial).trace =
          [Effect.playChannelCall "http://x/a.m3u8".toList singleChannelTitle,
           Effect.hlsNew 0, Effect.hlsLoadSource 0 "http://x/a.m3u8".toList,
           Effect.hlsAttachMedia 0, Effect.hlsOn 0 HlsEvent.manifestParsed,
           Effect.hlsOn 0 HlsEvent.error] :=
  ⟨by decide, by decide,
   (congrArg Player.trace
      (loadSource_m3u8_direct ⟨false, true⟩
        (fun _ => FetchOutcome.response true (some "#EXTM3U\nhttp://x/b.ts".toList))
        " http://x/a.m3u8 ".toList initial (by decide) (by decide)).1).trans (by decide)⟩

/-! ## Late engine events -/

theorem mem_constructed (tr : List Effect) (e : Nat) :
    e ∈ constructed tr ↔ Effect.hlsNew e ∈ tr := by
  induction tr with
  | nil => simp [constructed]
  | cons x xs ih =>
    unfold constructed at ih ⊢
    cases x <;> simp [List.filterMap_cons, ih]

theorem mem_destroyed (tr : List Effect) (e : Nat) :
    e ∈ destroyed tr ↔ Effect.hlsDestroy e ∈ tr := by
  induction tr with
  | nil => simp [destroyed]
  | cons x xs ih =>
    unfold destroyed at ih ⊢
    cases x <;> simp [List.filterMap_cons, ih]

theorem HandlersOfConstructed_append (tr added : List Effect)
    (h : HandlersOfConstructed tr)
    (hadd : ∀ engine event, Effect.hlsOn engine event ∈ added → Effect.hlsNew engine ∈ added) :
    HandlersOfConstructed (tr ++ added) := by
  intro engine event hmem
  rcases List.mem_append.mp hmem with hm | hm
  · exact List.mem_append.mpr (Or.inl (h engine event hm))
  · exact List.mem_append.mpr (Or.inr (hadd engine event hm))

theorem stopAndShowError_trace (msg : List Char) (s : Player) :
    (stopAndShowError msg s).trace =
      s.trace ++ ((match s.hls with
        | some engine => [Effect.hlsDestroy engine]
        | none => []) ++ [Effect.videoLoad]) := by
  cases hh : s.hls <;> simp [stopAndShowError, emit, hh]

theorem HandlersOfConstructed_stopAndShowError (msg : List Char) (s : Player)
    (h : HandlersOfConstructed s.trace) :
    HandlersOfConstructed (stopAndShowError msg s).trace := by
  rw [stopAndShowError_trace]
  apply HandlersOfConstructed_append _ _ h
  intro engine event hmem
  cases hh : s.hls <;> simp [hh] at hmem

theorem HandlersOfConstructed_playChannel (p : Platform) (url title : List Char) (s : Player)
    (h : HandlersOfConstructed s.trace) :
    HandlersOfConstructed (playChannel p url title s).trace := by
  rw [playChannel_trace]
  apply HandlersOfConstructed_append _ _ h
  intro engine event hmem
  cases hh : s.hls <;> cases hn : p.canPlayNative <;> cases hs : p.hlsSupported <;>
    simp [playChannelEffects, hh, hn, hs] at hmem ⊢ <;>
    rcases hmem with hm | hm <;> simp [hm.1]

theorem HandlersOfConstructed_onHlsError (data : ErrorData) (s : Player)
    (h : HandlersOfConstructed s.trace) :
    HandlersOfConstructed (onHlsError data s).state.trace := by
  obtain ⟨fatal, type⟩ := data
  cases fatal with
  | false => exact h
  | true =>
    cases type with
    | otherError => exact HandlersOfConstructed_stopAndShowError _ s h
    | networkError =>
      cases hh : s.hls with
      | none => simpa [onHlsError, hh, Outcome.state] using h
      | some e =>
        simp only [onHlsError, hh, Outcome.state, emit, Bool.not_true, Bool.false_eq_true,
          if_false]
        exact HandlersOfConstructed_append _ _ h (by simp)
    | mediaError =>
      cases hh : s.hls with
      | none => simpa [onHlsError, hh, Outcome.state] using h
      | some e =>
        simp only [onHlsError, hh, Outcome.state, emit, Bool.not_true, Bool.false_eq_true,
          if_false]
        exact HandlersOfConstructed_append _ _ h (by simp)

theorem HandlersOfConstructed_step (s : Player) (ev : Event)
    (h : HandlersOfConstructed s.trace) : HandlersOfConstructed (step s ev).trace := by
  cases ev with
  | playChannel p url title => exact HandlersOfConstructed_playChannel p url title s h
  | retryPlayback p =>
    simp only [step, retryPlayback]
    split
    · exact HandlersOfConstructed_playChannel _ _ _ s h
    · exact h
  | stopAndShowError msg => exact HandlersOfConstructed_stopAndShowError msg s h
  | nativePlayRejected => exact HandlersOfConstructed_stopAndShowError _ s h
  | hlsError engine data =>
    simp only [step]
    split
    · exact HandlersOfConstructed_onHlsError data s h
    · exact h
  | hlsManifestParsed engine =>
    simp only [step]
    split
    · exact HandlersOfConstructed_append _ _ h (by simp)
    · exact h

theorem HandlersOfConstructed_run (events : List Event) (s : Player)
    (h : HandlersOfConstructed s.trace) : HandlersOfConstructed (run s events).trace := by
  induction events generalizing s with
  | nil => exact h
  | cons ev evs ih => exact ih (step s ev) (HandlersOfConstructed_step s ev h)

/-- C9: in every state reached from a start state with `hls = null` and no engine yet,
(1) an error event of any kind fired by an engine `destroy` has been called on changes
nothing: no field of the state, no entry added to the trace, hence no command to any engine;
(2) an engine whose error handler can still run is the one `hls` refers to, so the handler
never calls a method on `null` and never reaches another instance;
(3) a channel switch by `playChannel` and a `stopAndShowError` both call `destroy` on the
engine `hls` refers to and leave `hls` referring to some other engine or to none. -/
theorem late_error_callback_noop (s0 : Player) (h0 : s0.hls = none) (ht : s0.trace = [])
    (events : List Event) (engine : Nat) (data : ErrorData) :
    (Effect.hlsDestroy engine ∈ (run s0 events).trace →
        step (run s0 events) (Event.hlsError engine data) = run s0 events)
      ∧ (handlerAttached (run s0 events) engine HlsEvent.error = true →
          (run s0 events).hls = some engine ∧
            onHlsError data (run s0 events) ≠ Outcome.threwTypeError (run s0 events))
      ∧ ((run s0 events).hls = some engine →
          ∀ (p : Platform) (url title msg : List Char),
            Effect.hlsDestroy engine ∈ (playChannel p url title (run s0 events)).trace ∧
            (playChannel p url title (run s0 events)).hls ≠ some engine ∧
            Effect.hlsDestroy engine ∈ (stopAndShowError msg (run s0 events)).trace ∧
            (stopAndShowError msg (run s0 events)).hls = none) := by
  have hinv := EngineInv_run events s0 (EngineInv_of_fresh s0 h0 ht)
  have hreg : HandlersOfConstructed (run s0 events).trace :=
    HandlersOfConstructed_run events s0 (by rw [ht]; intro e ev hm; cases hm)
  generalize run s0 events = s at hinv hreg ⊢
  obtain ⟨hl, hc, -⟩ := hinv
  refine ⟨?_, ?_, ?_⟩
  · intro hd
    simp [step, handlerAttached, hd]
  · intro hatt
    simp only [handlerAttached, Bool.and_eq_true, decide_eq_true_eq] at hatt
    have hlive : engine ∈ liveEngines s.trace := by
      unfold liveEngines
      rw [List.mem_filter]
      refine ⟨(mem_constructed _ _).mpr (hreg engine _ hatt.1), ?_⟩
      simp only [decide_eq_true_eq, mem_destroyed]
      exact hatt.2
    rw [hl] at hlive
    have hh : s.hls = some engine := by
      cases hs : s.hls with
      | none => rw [hs] at hlive; simp at hlive
      | some x => rw [hs] at hlive; simp at hlive; rw [hlive]
    refine ⟨hh, ?_⟩
    obtain ⟨fatal, type⟩ := data
    cases fatal <;> cases type <;> simp [onHlsError, hh]
  · intro hh p url title msg
    have hlt : engine < s.nextEngine := by
      apply hc
      have : engine ∈ liveEngines s.trace := by rw [hl, hh]; simp
      exact (List.mem_filter.mp this).1
    refine ⟨?_, ?_, ?_, ?_⟩
    · rw [playChannel_trace]
      simp [playChannelEffects, hh]
    · cases hn : p.canPlayNative <;> cases hs : p.hlsSupported <;>
        simp [playChannel, stopAndShowError, hideError, emit, hh, hn, hs]
      omega
    · rw [stopAndShowError_trace]
      simp [hh]
    · simp [stopAndShowError, emit, hh]

/-- C9, after a channel switch: engine 0 has been destroyed and engine 1 is live; a fatal
network error fired by engine 0 leaves the state as it is, and the handler of engine 1
finds `hls` referring to engine 1. -/
theorem late_error_callback_noop_witness :
    initial.hls = none ∧ initial.trace = []
      ∧ Effect.hlsDestroy 0 ∈
          (run initial [Event.playChannel ⟨false, true⟩ ['a'] ['A'],
            Event.playChannel ⟨false, true⟩ ['b'] ['B']]).trace
      ∧ step (run initial [Event.playChannel ⟨false, true⟩ ['a'] ['A'],
            Event.playChannel ⟨false, true⟩ ['b'] ['B']])
          (Event.hlsError 0 ⟨true, ErrorType.networkError⟩) =
        run initial [Event.playChannel ⟨false, true⟩ ['a'] ['A'],
          Event.playChannel ⟨false, true⟩ ['b'] ['B']]
      ∧ handlerAttached (run initial [Event.playChannel ⟨false, true⟩ ['a'] ['A'],
          Event.playChannel ⟨false, true⟩ ['b'] ['B']]) 1 HlsEvent.error = true
      ∧ (run initial [Event.playChannel ⟨false, true⟩ ['a'] ['A'],
          Event.playChannel ⟨false, true⟩ ['b'] ['B']]).hls = some 1 :=
  ⟨rfl, rfl, by decide,
   (late_error_callback_noop initial rfl rfl
      [Event.playChannel ⟨false, true⟩ ['a'] ['A'], Event.playChannel ⟨false, true⟩ ['b'] ['B']]
      0 ⟨true, ErrorType.networkError⟩).1 (by decide),
   by decide,
   ((late_error_callback_noop initial rfl rfl
      [Event.playChannel ⟨false, true⟩ ['a'] ['A'], Event.playChannel ⟨false, true⟩ ['b'] ['B']]
      1 ⟨true, ErrorType.networkError⟩).2.1 (by decide)).1⟩

/-! ## Where the error handler departs from its own comment -/

/-- C10 does not hold of the handler, which keeps no record of an earlier recovery: a
second fatal network error on the same engine issues `startLoad` once more; the engine is
not destroyed, `hls` still refers to it and the overlay stays hidden. -/
theorem second_network_error_restarts_again :
    (run initial [Event.playChannel ⟨false, true⟩ ['a'] ['A'],
        Event.hlsError 0 ⟨true, ErrorType.networkError⟩,
        Event.hlsError 0 ⟨true, ErrorType.networkError⟩]).trace =
        (run initial [Event.playChannel ⟨false, true⟩ ['a'] ['A']]).trace
          ++ [Effect.hlsStartLoad 0, Effect.hlsStartLoad 0]
      ∧ (run initial [Event.playChannel ⟨false, true⟩ ['a'] ['A'],
          Event.hlsError 0 ⟨true, ErrorType.networkError⟩,
          Event.hlsError 0 ⟨true, ErrorType.networkError⟩]).hls = some 0
      ∧ Effect.hlsDestroy 0 ∉
          (run initial [Event.playChannel ⟨false, true⟩ ['a'] ['A'],
            Event.hlsError 0 ⟨true, ErrorType.networkError⟩,
            Event.hlsError 0 ⟨true, ErrorType.networkError⟩]).trace
      ∧ (run initial [Event.playChannel ⟨false, true⟩ ['a'] ['A'],
          Event.hlsError 0 ⟨true, ErrorType.networkError⟩,
          Event.hlsError 0 ⟨true, ErrorType.networkError⟩]).errorOverlayDisplay =
        Display.none := by
  decide

end M3UPlayer
